import Mathlib

/-!
Shallow embedding of the breakout simulation core from `src/main.rs` and
`src/wall.rs` (a Bevy 0.9 breakout game). Real-valued quantities (`f32` in
the source) are modelled as rationals; all arithmetic in the claims under
study is exact, so no rounding model is needed. Per-tick systems are
modelled as pure state transformers over an explicit `World`.
-/

namespace Breakout

/-- `const TIME_STEP: f32 = 1.0 / 60.0;` (main.rs:15). -/
def TIME_STEP : ℚ := 1 / 60

/-- x-component of `const PADDLE_SIZE: Vec3 = Vec3::new(120.0, 20.0, 8.0);` (main.rs:19). -/
def PADDLE_SIZE_X : ℚ := 120

/-- `const PADDLE_SPEED: f32 = 500.0;` (main.rs:21). -/
def PADDLE_SPEED : ℚ := 500

/-- `const PADDLE_PADDING: f32 = 10.0;` (main.rs:23). -/
def PADDLE_PADDING : ℚ := 10

/-- `const BALL_SIZE: f32 = 15.0;` (main.rs:27). -/
def BALL_SIZE : ℚ := 15

/-- `const WALL_THICKNESS: f32 = 10.0;` (main.rs:31). -/
def WALL_THICKNESS : ℚ := 10

/-- `const LEFT_WALL: f32 = -450.;` (main.rs:33). -/
def LEFT_WALL : ℚ := -450

/-- `const RIGHT_WALL: f32 = 450.;` (main.rs:34). -/
def RIGHT_WALL : ℚ := 450

/-- `const BOTTOM_WALL: f32 = -300.;` (main.rs:36). -/
def BOTTOM_WALL : ℚ := -300

/-- `const TOP_WALL: f32 = 300.;` (main.rs:37). -/
def TOP_WALL : ℚ := 300

/-- A 2D vector (`Vec2` in the source), with rational components. -/
structure Vec2 where
  x : ℚ
  y : ℚ
deriving DecidableEq, Repr

/-- `bevy::sprite::collide_aabb::Collision`: the side of the collider the
ball is judged to have hit. -/
inductive Collision where
  | Left
  | Right
  | Top
  | Bottom
  | Inside
deriving DecidableEq, Repr

/-- Rust `f32::clamp(self, min, max)`: returns `min` if `self < min`,
`max` if `self > max`, otherwise `self` (used at main.rs:356). -/
def clampQ (x lo hi : ℚ) : ℚ :=
  if x < lo then lo else if x > hi then hi else x

/-- Embeds `bevy::sprite::collide_aabb::collide` (Bevy 0.9), the external
AABB collision primitive invoked at main.rs:385: axis-aligned overlap test
between box `a` (center `a_pos`, full size `a_size`) and box `b`; on
overlap, classifies the contact side by the axis of minimum penetration
(ties and one-sided cases favoring the vertical axis), `Inside` when
neither axis shows a clear side. -/
def collide (a_pos a_size b_pos b_size : Vec2) : Option Collision :=
  let a_min : Vec2 := ⟨a_pos.x - a_size.x / 2, a_pos.y - a_size.y / 2⟩
  let a_max : Vec2 := ⟨a_pos.x + a_size.x / 2, a_pos.y + a_size.y / 2⟩
  let b_min : Vec2 := ⟨b_pos.x - b_size.x / 2, b_pos.y - b_size.y / 2⟩
  let b_max : Vec2 := ⟨b_pos.x + b_size.x / 2, b_pos.y + b_size.y / 2⟩
  if a_min.x < b_max.x ∧ a_max.x > b_min.x ∧ a_min.y < b_max.y ∧ a_max.y > b_min.y then
    let xc : Option Collision × ℚ :=
      if a_min.x < b_min.x ∧ a_max.x > b_min.x ∧ a_max.x < b_max.x then
        (some .Left, b_min.x - a_max.x)
      else if a_min.x > b_min.x ∧ a_min.x < b_max.x ∧ a_max.x > b_max.x then
        (some .Right, a_min.x - b_max.x)
      else (none, 0)
    let yc : Option Collision × ℚ :=
      if a_min.y < b_min.y ∧ a_max.y > b_min.y ∧ a_max.y < b_max.y then
        (some .Bottom, b_min.y - a_max.y)
      else if a_min.y > b_min.y ∧ a_min.y < b_max.y ∧ a_max.y > b_max.y then
        (some .Top, a_min.y - b_max.y)
      else (none, 0)
    match xc, yc with
    | (some x_collision, x_depth), (some y_collision, y_depth) =>
        if |y_depth| > |x_depth| then some x_collision else some y_collision
    | (some x_collision, _), (none, _) => some x_collision
    | (none, _), (some y_collision, _) => some y_collision
    | (none, _), (none, _) => some .Inside
  else
    none

/-- `let ball_size = Vec2::new(BALL_SIZE, BALL_SIZE);` (main.rs:381): the
square box used for the ball in every collision test. -/
def ball_size : Vec2 := ⟨BALL_SIZE, BALL_SIZE⟩

/-- The ball's radius: the ball mesh is spawned as
`shape::Icosphere { radius: BALL_SIZE, .. }` (main.rs:200-203). -/
def ballRadius : ℚ := BALL_SIZE

/-- `.insert_resource(Scoreboard { score: 0 })` (main.rs:66): the
scoreboard's initial value. -/
def initialScoreboard : Nat := 0

/-- The `direction` accumulator of `move_paddle` (main.rs:338-346):
starts at `0.0`, `-= 1.0` when Left is pressed, `+= 1.0` when Right is
pressed. -/
def direction (leftPressed rightPressed : Bool) : ℚ :=
  let d : ℚ := 0
  let d := if leftPressed then d - 1 else d
  if rightPressed then d + 1 else d

/-- `let new_paddle_position = paddle_transform.translation.x + direction * PADDLE_SPEED * TIME_STEP;`
(main.rs:349). -/
def new_paddle_position (leftPressed rightPressed : Bool) (x : ℚ) : ℚ :=
  x + direction leftPressed rightPressed * PADDLE_SPEED * TIME_STEP

/-- `let left_bound = LEFT_WALL + WALL_THICKNESS / 2.0 + PADDLE_SIZE.x / 2.0 + PADDLE_PADDING;`
(main.rs:353). -/
def left_bound : ℚ := LEFT_WALL + WALL_THICKNESS / 2 + PADDLE_SIZE_X / 2 + PADDLE_PADDING

/-- `let right_bound = RIGHT_WALL - WALL_THICKNESS / 2.0 - PADDLE_SIZE.x / 2.0 - PADDLE_PADDING;`
(main.rs:354). -/
def right_bound : ℚ := RIGHT_WALL - WALL_THICKNESS / 2 - PADDLE_SIZE_X / 2 - PADDLE_PADDING

/-- `move_paddle` (main.rs:333-357) as a function of the sampled input and
the paddle's current x: computes `new_paddle_position` and clamps it to
`[left_bound, right_bound]` (main.rs:356). -/
def move_paddle (leftPressed rightPressed : Bool) (x : ℚ) : ℚ :=
  clampQ (new_paddle_position leftPressed rightPressed x) left_bound right_bound

/-- `apply_velocity` (main.rs:359-364) acting on one entity: sequential
in-place updates `translation.x += velocity.x * TIME_STEP;`
`translation.y += velocity.y * TIME_STEP;`. -/
def apply_velocity (p v : Vec2) : Vec2 :=
  let p := { p with x := p.x + v.x * TIME_STEP }
  { p with y := p.y + v.y * TIME_STEP }

/-- Iterated integration: the position after `n` fixed ticks of
`apply_velocity` with a constant velocity `v`. -/
def integrate : Nat → Vec2 → Vec2 → Vec2
  | 0, p, _ => p
  | n + 1, p, v => integrate n (apply_velocity p v) v

/-- The conditional reflection of `check_for_collisions` (main.rs:401-423)
for one processed contact: `reflect_x`/`reflect_y` are set from the
contact side and the current velocity sign, then each flagged component is
negated. -/
def reflectVelocity (c : Collision) (v : Vec2) : Vec2 :=
  let reflect_x : Bool :=
    match c with
    | .Left => decide (v.x > 0)
    | .Right => decide (v.x < 0)
    | _ => false
  let reflect_y : Bool :=
    match c with
    | .Top => decide (v.y < 0)
    | .Bottom => decide (v.y > 0)
    | _ => false
  let v := if reflect_x then { v with x := -v.x } else v
  if reflect_y then { v with y := -v.y } else v

/-- One entity of the `collider_query` (main.rs:375): its `Entity` id, its
`Transform` translation, whether it carries the `Brick` marker, and
whether it carries the `Paddle` marker (the paddle is spawned with
`Collider` at main.rs:176-188, bricks at main.rs:300-312, walls in
wall.rs:46-77).

Modelled from the spec: the collider-size argument of the `collide` call
is syntactically incomplete in the source (`transform.,` at main.rs:389),
so, per the spec's Collider capability (each collider "exposing position
and half-extent"), each collider carries its own box size `size` here. -/
structure ColliderEnt where
  id : Nat
  pos : Vec2
  size : Vec2
  isBrick : Bool
  isPaddle : Bool
deriving DecidableEq, Repr

/-- The mutable state threaded through one run of `check_for_collisions`:
the ball's velocity, the scoreboard, the entities despawned so far this
tick (via `commands.entity(..).despawn()`, applied at the end of the
tick), and the number of `CollisionEvent`s sent. -/
structure EngineState where
  velocity : Vec2
  score : Nat
  despawned : List Nat
  events : Nat
deriving DecidableEq, Repr

/-- The body of the `for (collider_entity, transform, maybe_brick) in &collider_query`
loop of `check_for_collisions` (main.rs:384-425): test the ball box
against the collider box; on a hit send a `CollisionEvent`, despawn and
score the collider if it is a brick, then conditionally reflect the
velocity. -/
def processCollider (ballPos : Vec2) (st : EngineState) (c : ColliderEnt) : EngineState :=
  match collide ballPos ball_size c.pos c.size with
  | none => st
  | some collision =>
    let st := { st with events := st.events + 1 }
    let st :=
      if c.isBrick then
        { st with score := st.score + 1, despawned := st.despawned ++ [c.id] }
      else st
    { st with velocity := reflectVelocity collision st.velocity }

/-- `check_for_collisions` (main.rs:371-426): folds the loop body over the
collider query, starting from the ball's current velocity and the current
score, with nothing despawned and no events sent. -/
def check_for_collisions (ballPos : Vec2) (v : Vec2) (score : Nat)
    (colliders : List ColliderEnt) : EngineState :=
  colliders.foldl (processCollider ballPos) ⟨v, score, [], 0⟩

/-- The simulation state at a tick boundary: the ball's `Transform`
translation and `Velocity`, the `Scoreboard` resource, and the live
collider entities (walls, paddle, live bricks). The paddle's x-position is
the `pos.x` of the collider entity marked `isPaddle`. -/
structure World where
  ballPos : Vec2
  ballVel : Vec2
  score : Nat
  colliders : List ColliderEnt
deriving DecidableEq, Repr

/-- The effect of `move_paddle` on one collider entity: the paddle
entity's `Transform` x is moved, every other entity is untouched
(`query: Query<&mut Transform, With<Paddle>>`, main.rs:335). -/
def paddleMove (leftPressed rightPressed : Bool) (c : ColliderEnt) : ColliderEnt :=
  if c.isPaddle then
    { c with pos := ⟨move_paddle leftPressed rightPressed c.pos.x, c.pos.y⟩ }
  else c

/-- The `move_paddle` system as a `World` transformer. -/
def movePaddleSys (leftPressed rightPressed : Bool) (w : World) : World :=
  { w with colliders := w.colliders.map (paddleMove leftPressed rightPressed) }

/-- The `apply_velocity` system as a `World` transformer: only the ball
carries a `Velocity` component (main.rs:216-217), so only the ball's
translation moves. -/
def applyVelocitySys (w : World) : World :=
  { w with ballPos := apply_velocity w.ballPos w.ballVel }

/-- The `check_for_collisions` system as a `World` transformer: runs the
engine over the collider query at the ball's current position, commits the
new velocity and score, and applies the queued despawns (removing every
despawned entity id from the live set). -/
def checkForCollisionsSys (w : World) : World :=
  let res := check_for_collisions w.ballPos w.ballVel w.score w.colliders
  { w with
    ballVel := res.velocity
    score := res.score
    colliders := w.colliders.filter fun c => decide (c.id ∉ res.despawned) }

/-- One fixed tick in the order the schedule permits and the spec
describes: paddle motion and integration (both declared `.before(check_for_collisions)`
at main.rs:79-81), then the collision engine. -/
def tick (leftPressed rightPressed : Bool) (w : World) : World :=
  checkForCollisionsSys (applyVelocitySys (movePaddleSys leftPressed rightPressed w))

/-- Iterated ticks over an input trace (the per-tick left/right key
state), earliest input first. -/
def run (inputs : List (Bool × Bool)) (w : World) : World :=
  inputs.foldl (fun w i => tick i.1 i.2 w) w

/-- The entities queued for despawn during one tick: the `despawned` field
of the engine state produced by `check_for_collisions` when it runs after
`move_paddle` and `apply_velocity`. -/
def despawnedThisTick (leftPressed rightPressed : Bool) (w : World) : List Nat :=
  let w1 := applyVelocitySys (movePaddleSys leftPressed rightPressed w)
  (check_for_collisions w1.ballPos w1.ballVel w1.score w1.colliders).despawned

/-- A concrete paddle collider entity (position and size as spawned at
main.rs:174-188), used to exercise the tick on a closed world. -/
def paddleEnt : ColliderEnt := ⟨0, ⟨0, -240⟩, ⟨120, 20⟩, false, true⟩

/-- A closed world holding the ball at rest at the origin and the paddle. -/
def w0 : World := ⟨⟨0, 0⟩, ⟨0, 0⟩, 0, [paddleEnt]⟩

/-- A concrete brick collider entity of the spawned brick size
(main.rs:39), centered at the origin. -/
def brick0 : ColliderEnt := ⟨7, ⟨0, 0⟩, ⟨80, 15⟩, true, false⟩

/-- A closed world in which the resting ball overlaps the brick. -/
def w1 : World := ⟨⟨0, 0⟩, ⟨0, 0⟩, 0, [brick0]⟩

/-- The systems registered in the fixed-timestep `SystemSet` (main.rs:71-83). -/
inductive SystemId where
  | camera_movement
  | check_for_collisions
  | move_paddle
  | apply_velocity
deriving DecidableEq, Repr

/-- The ordering constraints declared on the fixed-timestep set
(main.rs:77-81): `move_paddle.before(check_for_collisions)` and
`apply_velocity.before(check_for_collisions)`; no other edges. -/
def beforeEdges : List (SystemId × SystemId) :=
  [(.move_paddle, .check_for_collisions), (.apply_velocity, .check_for_collisions)]

/-- System `a` is forced to run before system `b`: the transitive closure
of the declared `.before` edges. -/
def orderedBefore (a b : SystemId) : Prop :=
  Relation.TransGen (fun x y => (x, y) ∈ beforeEdges) a b

/-! ## Theorems -/

/-- C1. For every processed ball-collider contact, velocity reflection is
conditional on direction of motion: on a `Left` contact the x-velocity is
negated if and only if it is currently positive (otherwise the velocity is
unchanged); on a `Right` contact iff it is negative; on a `Top` contact
the y-velocity is negated iff it is negative; on a `Bottom` contact iff it
is positive; an `Inside` contact changes neither component. -/
theorem C1_conditional_reflection (v : Vec2) :
    reflectVelocity .Left v = (if v.x > 0 then ⟨-v.x, v.y⟩ else v) ∧
    reflectVelocity .Right v = (if v.x < 0 then ⟨-v.x, v.y⟩ else v) ∧
    reflectVelocity .Top v = (if v.y < 0 then ⟨v.x, -v.y⟩ else v) ∧
    reflectVelocity .Bottom v = (if v.y > 0 then ⟨v.x, -v.y⟩ else v) ∧
    reflectVelocity .Inside v = v := by
  refine ⟨?_, ?_, ?_, ?_, ?_⟩ <;>
    simp only [reflectVelocity] <;> split_ifs <;> simp_all

/-- C5. The integrator advances the ball by exactly one Euler step per
tick, `new position = old position + velocity * timestep`, applied
independently to the two axes; and there is no clamping of the result to
the arena (starting on the right wall with a rightward velocity, the new
position lies beyond the wall). -/
theorem C5_euler_step (p v : Vec2) :
    apply_velocity p v = ⟨p.x + v.x * TIME_STEP, p.y + v.y * TIME_STEP⟩ ∧
    (apply_velocity ⟨RIGHT_WALL, 0⟩ ⟨600, 0⟩).x > RIGHT_WALL := by
  exact ⟨rfl, by norm_num [apply_velocity, RIGHT_WALL, TIME_STEP]⟩

/-- C8. Paddle motion is the pure function
`direction = (+1 if right pressed else 0) + (−1 if left pressed else 0)`;
pressing both keys yields zero net motion; and the new x-position before
clamping equals `old_x + direction * speed * timestep`. -/
theorem C8_paddle_direction (l r : Bool) (x : ℚ) :
    direction l r = (if r then 1 else 0) + (if l then -1 else 0) ∧
    direction true true = 0 ∧
    new_paddle_position l r x = x + direction l r * PADDLE_SPEED * TIME_STEP := by
  refine ⟨?_, by norm_num [direction], rfl⟩
  cases l <;> cases r <;> norm_num [direction]

/-- Integrating with zero velocity is the identity on positions for a
single step. -/
theorem apply_velocity_zero (p : Vec2) : apply_velocity p ⟨0, 0⟩ = p := by
  cases p
  simp [apply_velocity]

/-- C9. Round-trip: for every starting position and every number of ticks
`n`, integrating the ball with zero velocity for `n` ticks leaves its
position unchanged. -/
theorem C9_zero_velocity_roundtrip (n : Nat) (p : Vec2) :
    integrate n p ⟨0, 0⟩ = p := by
  induction n generalizing p with
  | zero => rfl
  | succ n ih => rw [integrate, apply_velocity_zero, ih]

/-- Rust's clamp lands in the closed interval when the interval is
nonempty. -/
theorem clampQ_bounds (x lo hi : ℚ) (h : lo ≤ hi) :
    lo ≤ clampQ x lo hi ∧ clampQ x lo hi ≤ hi := by
  unfold clampQ
  split_ifs <;> constructor <;> linarith

/-- The clamped paddle position always lies in `[left_bound, right_bound]`. -/
theorem move_paddle_bounds (l r : Bool) (x : ℚ) :
    left_bound ≤ move_paddle l r x ∧ move_paddle l r x ≤ right_bound :=
  clampQ_bounds _ _ _ (by norm_num [left_bound, right_bound, LEFT_WALL, RIGHT_WALL,
    WALL_THICKNESS, PADDLE_SIZE_X, PADDLE_PADDING])

/-- `paddleMove` only rewrites the position. -/
theorem paddleMove_fields (l r : Bool) (c : ColliderEnt) :
    (paddleMove l r c).id = c.id ∧ (paddleMove l r c).size = c.size ∧
    (paddleMove l r c).isBrick = c.isBrick ∧ (paddleMove l r c).isPaddle = c.isPaddle := by
  unfold paddleMove
  split_ifs <;> exact ⟨rfl, rfl, rfl, rfl⟩

/-- `paddleMove` fixes every non-paddle entity. -/
theorem paddleMove_of_not_paddle (l r : Bool) (c : ColliderEnt) (h : c.isPaddle = false) :
    paddleMove l r c = c := by
  unfold paddleMove
  simp [h]

/-- C2. After the paddle motion step the paddle's x-position lies within
`[left_bound, right_bound]` (bounds built from the arena edge, half the
wall thickness, the paddle half-width and the padding margin), for every
tick and every input; consequently the paddle never overlaps a wall
(its edges stay inside the walls' inner faces) and this holds for the
paddle entity in the world after any full tick. -/
theorem C2_paddle_stays_in_bounds :
    left_bound = LEFT_WALL + WALL_THICKNESS / 2 + PADDLE_SIZE_X / 2 + PADDLE_PADDING ∧
    right_bound = RIGHT_WALL - WALL_THICKNESS / 2 - PADDLE_SIZE_X / 2 - PADDLE_PADDING ∧
    (∀ l r x, left_bound ≤ move_paddle l r x ∧ move_paddle l r x ≤ right_bound ∧
      LEFT_WALL + WALL_THICKNESS / 2 ≤ move_paddle l r x - PADDLE_SIZE_X / 2 ∧
      move_paddle l r x + PADDLE_SIZE_X / 2 ≤ RIGHT_WALL - WALL_THICKNESS / 2) ∧
    (∀ l r w c, c ∈ (tick l r w).colliders → c.isPaddle = true →
      left_bound ≤ c.pos.x ∧ c.pos.x ≤ right_bound) := by
  refine ⟨rfl, rfl, ?_, ?_⟩
  · intro l r x
    obtain ⟨h1, h2⟩ := move_paddle_bounds l r x
    refine ⟨h1, h2, ?_, ?_⟩ <;>
      [have := h1; have := h2] <;>
      simp only [left_bound, right_bound, LEFT_WALL, RIGHT_WALL, WALL_THICKNESS,
        PADDLE_SIZE_X, PADDLE_PADDING] at * <;> linarith
  · intro l r w c hmem hpad
    have hmem2 : c ∈ (movePaddleSys l r w).colliders := by
      have : c ∈ ((movePaddleSys l r w).colliders.filter
          fun d => decide (d.id ∉ (despawnedThisTick l r w))) := by
        simpa [tick, checkForCollisionsSys, applyVelocitySys, despawnedThisTick] using hmem
      exact List.mem_of_mem_filter this
    simp only [movePaddleSys, List.mem_map] at hmem2
    obtain ⟨c0, _, hfc0⟩ := hmem2
    by_cases hp : c0.isPaddle
    · have : c.pos.x = move_paddle l r c0.pos.x := by
        rw [← hfc0]
        simp [paddleMove, hp]
      rw [this]
      exact move_paddle_bounds l r c0.pos.x
    · rw [paddleMove_of_not_paddle l r c0 (by simpa using hp)] at hfc0
      subst hfc0
      simp [hp] at hpad

/-- Witness for C2: in the closed world `w0` the paddle survives the
tick and its position is inside the bounds. -/
theorem C2_witness :
    paddleEnt ∈ (tick false false w0).colliders ∧
    left_bound ≤ paddleEnt.pos.x ∧ paddleEnt.pos.x ≤ right_bound := by
  have hmem : paddleEnt ∈ (tick false false w0).colliders := by
    norm_num [tick, movePaddleSys, applyVelocitySys, checkForCollisionsSys, w0, paddleEnt,
      paddleMove, move_paddle, new_paddle_position, direction, clampQ, left_bound, right_bound,
      LEFT_WALL, RIGHT_WALL, WALL_THICKNESS, PADDLE_SIZE_X, PADDLE_PADDING, PADDLE_SPEED,
      TIME_STEP, apply_velocity, check_for_collisions, processCollider, collide, ball_size,
      BALL_SIZE]
  exact ⟨hmem, C2_paddle_stays_in_bounds.2.2.2 false false w0 paddleEnt hmem rfl⟩

/-- Once `orderedBefore` leaves `move_paddle`, it can only have reached
`check_for_collisions`, which has no outgoing constraint. -/
theorem orderedBefore_move_paddle (b : SystemId) :
    orderedBefore .move_paddle b → b = .check_for_collisions := by
  intro hb
  induction hb with
  | single h1 => simp [beforeEdges] at h1; tauto
  | tail _ h2 ih =>
    subst ih
    simp [beforeEdges] at h2

/-- Counterexample to C6 as stated: the schedule declared at main.rs:77-81
does not force `move_paddle` to run before `apply_velocity`; the only
declared constraints make both run before `check_for_collisions`. -/
theorem C6_counterexample : ¬ orderedBefore .move_paddle .apply_velocity := by
  intro h
  exact absurd (orderedBefore_move_paddle _ h) (by simp)

/-- C6 (amended). Within every fixed tick, `move_paddle` and
`apply_velocity` are each constrained to run before
`check_for_collisions`, so collision tests always see the post-motion
ball and paddle positions of that tick; no relative order between
`move_paddle` and `apply_velocity` is declared, but the two systems write
disjoint state and commute, so either admissible order produces the same
world at the collision engine. -/
theorem C6_schedule_order :
    (SystemId.move_paddle, SystemId.check_for_collisions) ∈ beforeEdges ∧
    (SystemId.apply_velocity, SystemId.check_for_collisions) ∈ beforeEdges ∧
    (∀ l r w, applyVelocitySys (movePaddleSys l r w) = movePaddleSys l r (applyVelocitySys w)) ∧
    (∀ l r w, tick l r w = checkForCollisionsSys (movePaddleSys l r (applyVelocitySys w))) := by
  refine ⟨by simp [beforeEdges], by simp [beforeEdges], fun l r w => rfl, fun l r w => ?_⟩
  rw [tick]
  rfl

/-- Counterexample to C7 as stated: the collision box side is `BALL_SIZE`,
the ball's radius, not `2 * radius`; and the two boxes are observably
different, since a collider can miss the real box while overlapping the
`2 * radius` one. -/
theorem C7_counterexample :
    ball_size.x ≠ 2 * ballRadius ∧
    collide ⟨22, 0⟩ ball_size ⟨0, 0⟩ ⟨20, 20⟩ = none ∧
    collide ⟨22, 0⟩ ⟨2 * ballRadius, 2 * ballRadius⟩ ⟨0, 0⟩ ⟨20, 20⟩ ≠ none := by
  refine ⟨by norm_num [ball_size, ballRadius, BALL_SIZE], ?_, ?_⟩
  · norm_num [collide, ball_size, BALL_SIZE]
  · have h : collide ⟨22, 0⟩ ⟨2 * ballRadius, 2 * ballRadius⟩ ⟨0, 0⟩ ⟨20, 20⟩
        = some .Right := by
      norm_num [collide, ballRadius, BALL_SIZE]
    simp [h]

/-- C7 (amended). For collision purposes the ball is treated as an
axis-aligned square bounding box whose side length equals `BALL_SIZE` —
the ball's radius, not twice it — and this box is what is tested for AABB
overlap against every collider: a collider whose box does not overlap it
leaves the engine state untouched, and one that does always produces a
processed contact. -/
theorem C7_ball_bounding_box :
    ball_size = ⟨ballRadius, ballRadius⟩ ∧
    (∀ p st c, collide p ball_size c.pos c.size = none →
      processCollider p st c = st) ∧
    (∀ p st c col, collide p ball_size c.pos c.size = some col →
      (processCollider p st c).events = st.events + 1) := by
  refine ⟨rfl, ?_, ?_⟩
  · intro p st c h
    simp [processCollider, h]
  · intro p st c col h
    simp only [processCollider, h]
    split_ifs <;> rfl

/-- One engine step either leaves the despawn queue alone, or appends
exactly the current collider's id, the latter only for a brick that was
hit. -/
theorem processCollider_despawned_cases (p : Vec2) (st : EngineState) (c : ColliderEnt) :
    (processCollider p st c).despawned = st.despawned ∨
    (c.isBrick = true ∧ collide p ball_size c.pos c.size ≠ none ∧
      (processCollider p st c).despawned = st.despawned ++ [c.id]) := by
  rcases h : collide p ball_size c.pos c.size with _ | col
  · left
    simp [processCollider, h]
  · by_cases hb : c.isBrick
    · right
      exact ⟨hb, by simp [h], by simp [processCollider, h, hb]⟩
    · left
      simp [processCollider, h, hb]

/-- A brick that was hit is queued for despawn by its engine step. -/
theorem processCollider_despawned_hit (p : Vec2) (st : EngineState) (c : ColliderEnt)
    (hb : c.isBrick = true) (hh : collide p ball_size c.pos c.size ≠ none) :
    (processCollider p st c).despawned = st.despawned ++ [c.id] := by
  rcases h : collide p ball_size c.pos c.size with _ | col
  · exact absurd h hh
  · simp [processCollider, h, hb]

/-- One engine step raises the score by exactly the number of ids it
appends to the despawn queue. -/
theorem processCollider_score_despawned (p : Vec2) (st : EngineState) (c : ColliderEnt) :
    (processCollider p st c).score + st.despawned.length
      = st.score + (processCollider p st c).despawned.length := by
  rcases h : collide p ball_size c.pos c.size with _ | col
  · simp [processCollider, h]
  · by_cases hb : c.isBrick <;> simp [processCollider, h, hb]
    omega

/-- One engine step preserves the absolute value of each velocity
component. -/
theorem reflectVelocity_abs (c : Collision) (v : Vec2) :
    |(reflectVelocity c v).x| = |v.x| ∧ |(reflectVelocity c v).y| = |v.y| := by
  cases c <;> simp only [reflectVelocity] <;> split_ifs <;> simp [abs_neg]

/-- The engine step's whole effect on the velocity is the conditional
reflection, so component magnitudes are preserved. -/
theorem processCollider_velocity_abs (p : Vec2) (st : EngineState) (c : ColliderEnt) :
    |(processCollider p st c).velocity.x| = |st.velocity.x| ∧
    |(processCollider p st c).velocity.y| = |st.velocity.y| := by
  rcases h : collide p ball_size c.pos c.size with _ | col
  · simp [processCollider, h]
  · have hv : (processCollider p st c).velocity = reflectVelocity col st.velocity := by
      by_cases hb : c.isBrick <;> simp [processCollider, h, hb]
    rw [hv]
    exact reflectVelocity_abs col st.velocity

/-- Ids already queued for despawn stay queued across an engine step. -/
theorem processCollider_despawned_mono (p : Vec2) (st : EngineState) (c : ColliderEnt)
    (i : Nat) (h : i ∈ st.despawned) : i ∈ (processCollider p st c).despawned := by
  rcases processCollider_despawned_cases p st c with hc | ⟨_, _, hc⟩ <;> rw [hc] <;> simp [h]

/-- Ids already queued for despawn stay queued across the whole collider
loop. -/
theorem foldl_despawned_mono (p : Vec2) (cs : List ColliderEnt) (st : EngineState) (i : Nat)
    (h : i ∈ st.despawned) : i ∈ (cs.foldl (processCollider p) st).despawned := by
  induction cs generalizing st with
  | nil => exact h
  | cons c cs ih => exact ih _ (processCollider_despawned_mono p st c i h)

/-- Across the whole collider loop, the score grows by exactly the number
of newly queued despawns. -/
theorem foldl_score_despawned (p : Vec2) (cs : List ColliderEnt) (st : EngineState) :
    (cs.foldl (processCollider p) st).score + st.despawned.length
      = st.score + (cs.foldl (processCollider p) st).despawned.length := by
  induction cs generalizing st with
  | nil => simp
  | cons c cs ih =>
    have h1 := processCollider_score_despawned p st c
    have h2 := ih (processCollider p st c)
    simp only [List.foldl_cons]
    omega

/-- Every id the collider loop queues for despawn is either inherited or
the id of some brick in the traversed list. -/
theorem foldl_despawned_sources (p : Vec2) (cs : List ColliderEnt) (st : EngineState) :
    ∀ i ∈ (cs.foldl (processCollider p) st).despawned,
      i ∈ st.despawned ∨ ∃ c, c ∈ cs ∧ c.id = i ∧ c.isBrick = true := by
  induction cs generalizing st with
  | nil =>
    intro i hi
    exact Or.inl hi
  | cons c cs ih =>
    intro i hi
    rcases ih (processCollider p st c) i (by simpa using hi) with h | ⟨d, hd, hdi, hdb⟩
    · rcases processCollider_despawned_cases p st c with hc | ⟨hb, _, hc⟩
      · rw [hc] at h
        exact Or.inl h
      · rw [hc] at h
        rcases List.mem_append.mp h with h | h
        · exact Or.inl h
        · right
          exact ⟨c, List.mem_cons_self c cs, by simpa using (List.mem_singleton.mp h).symm, hb⟩
    · exact Or.inr ⟨d, List.mem_cons_of_mem _ hd, hdi, hdb⟩

/-- A brick in the collider list that overlaps the ball box ends the loop
queued for despawn. -/
theorem foldl_hit_brick (p : Vec2) (cs : List ColliderEnt) (st : EngineState) (c : ColliderEnt)
    (hmem : c ∈ cs) (hb : c.isBrick = true) (hh : collide p ball_size c.pos c.size ≠ none) :
    c.id ∈ (cs.foldl (processCollider p) st).despawned := by
  induction hmem generalizing st with
  | head as =>
    simp only [List.foldl_cons]
    apply foldl_despawned_mono
    rw [processCollider_despawned_hit p st c hb hh]
    simp
  | tail d hmem ih =>
    simp only [List.foldl_cons]
    exact ih _

/-- If the collider ids are distinct and disjoint from the inherited
queue, the despawn queue the loop produces has no duplicates. -/
theorem foldl_despawned_nodup (p : Vec2) (cs : List ColliderEnt) (st : EngineState)
    (h1 : st.despawned.Nodup)
    (h2 : ∀ i ∈ st.despawned, i ∉ cs.map ColliderEnt.id)
    (h3 : (cs.map ColliderEnt.id).Nodup) :
    (cs.foldl (processCollider p) st).despawned.Nodup := by
  induction cs generalizing st with
  | nil => exact h1
  | cons c cs ih =>
    simp only [List.map_cons, List.nodup_cons] at h3
    simp only [List.foldl_cons]
    apply ih
    · rcases processCollider_despawned_cases p st c with hc | ⟨_, _, hc⟩ <;> rw [hc]
      · exact h1
      · refine List.Nodup.append h1 (List.nodup_singleton _) ?_
        intro a ha hab
        have := h2 a ha
        simp only [List.map_cons, List.mem_cons] at this
        exact this (Or.inl (List.mem_singleton.mp hab))
    · intro i hi
      rcases processCollider_despawned_cases p st c with hc | ⟨_, _, hc⟩ <;> rw [hc] at hi
      · have := h2 i hi
        simp only [List.map_cons, List.mem_cons] at this
        exact fun hmem => this (Or.inr hmem)
      · rcases List.mem_append.mp hi with h | h
        · have := h2 i h
          simp only [List.map_cons, List.mem_cons] at this
          exact fun hmem => this (Or.inr hmem)
        · rw [List.mem_singleton.mp h]
          exact h3.1
    · exact h3.2

/-- The collider loop preserves the absolute value of both velocity
components. -/
theorem foldl_velocity_abs (p : Vec2) (cs : List ColliderEnt) (st : EngineState) :
    |(cs.foldl (processCollider p) st).velocity.x| = |st.velocity.x| ∧
    |(cs.foldl (processCollider p) st).velocity.y| = |st.velocity.y| := by
  induction cs generalizing st with
  | nil => exact ⟨rfl, rfl⟩
  | cons c cs ih =>
    simp only [List.foldl_cons]
    obtain ⟨hx, hy⟩ := processCollider_velocity_abs p st c
    obtain ⟨hx2, hy2⟩ := ih (processCollider p st c)
    exact ⟨hx2.trans hx, hy2.trans hy⟩

/-- `paddleMove` preserves the multiset of collider ids. -/
theorem movePaddleSys_ids (l r : Bool) (w : World) :
    ((movePaddleSys l r w).colliders).map ColliderEnt.id = w.colliders.map ColliderEnt.id := by
  simp only [movePaddleSys, List.map_map]
  induction w.colliders with
  | nil => rfl
  | cons c cs ih =>
    simp only [List.map_cons, ih, Function.comp_apply, (paddleMove_fields l r c).1]

/-- Witness for C7 (amended): a collider missing the ball box is a no-op
for the engine; one overlapping it raises the event count. -/
theorem C7_witness :
    processCollider ⟨22, 0⟩ ⟨⟨1, 1⟩, 0, [], 0⟩ ⟨5, ⟨0, 0⟩, ⟨20, 20⟩, true, false⟩
      = ⟨⟨1, 1⟩, 0, [], 0⟩ ∧
    (processCollider ⟨7, 0⟩ ⟨⟨1, 1⟩, 0, [], 0⟩ ⟨5, ⟨0, 0⟩, ⟨20, 20⟩, true, false⟩).events
      = 0 + 1 := by
  constructor
  · exact C7_ball_bounding_box.2.1 ⟨22, 0⟩ ⟨⟨1, 1⟩, 0, [], 0⟩ ⟨5, ⟨0, 0⟩, ⟨20, 20⟩, true, false⟩
      (by norm_num [collide, ball_size, BALL_SIZE])
  · exact C7_ball_bounding_box.2.2 ⟨7, 0⟩ ⟨⟨1, 1⟩, 0, [], 0⟩ ⟨5, ⟨0, 0⟩, ⟨20, 20⟩, true, false⟩
      Collision.Right (by norm_num [collide, ball_size, BALL_SIZE])

/-- C3. The scoreboard starts at 0; after each tick it has increased by
exactly the number of bricks newly destroyed that tick (the despawned
entities, each of which is a brick of the pre-tick world), so it is
incremented by exactly 1 per destroyed brick, by nothing else, and is
monotonically non-decreasing over every tick. -/
theorem C3_scoreboard_counts_bricks :
    initialScoreboard = 0 ∧
    (∀ l r w, (tick l r w).score = w.score + (despawnedThisTick l r w).length) ∧
    (∀ l r w, w.score ≤ (tick l r w).score) ∧
    (∀ l r w i, i ∈ despawnedThisTick l r w →
      ∃ c, c ∈ w.colliders ∧ c.id = i ∧ c.isBrick = true) := by
  have hscore : ∀ l r w, (tick l r w).score = w.score + (despawnedThisTick l r w).length := by
    intro l r w
    have h := foldl_score_despawned (applyVelocitySys (movePaddleSys l r w)).ballPos
      (applyVelocitySys (movePaddleSys l r w)).colliders
      ⟨(applyVelocitySys (movePaddleSys l r w)).ballVel,
        (applyVelocitySys (movePaddleSys l r w)).score, [], 0⟩
    simpa [tick, checkForCollisionsSys, check_for_collisions, despawnedThisTick,
      applyVelocitySys, movePaddleSys] using h
  refine ⟨rfl, hscore, fun l r w => by rw [hscore]; exact Nat.le_add_right _ _, ?_⟩
  intro l r w i hi
  have hi2 : i ∈ ((applyVelocitySys (movePaddleSys l r w)).colliders.foldl
      (processCollider (applyVelocitySys (movePaddleSys l r w)).ballPos)
      ⟨(applyVelocitySys (movePaddleSys l r w)).ballVel,
        (applyVelocitySys (movePaddleSys l r w)).score, [], 0⟩).despawned := by
    simpa [despawnedThisTick, check_for_collisions] using hi
  rcases foldl_despawned_sources _ _ _ i hi2 with h | ⟨c, hc, hci, hcb⟩
  · simp at h
  · have hc2 : c ∈ (w.colliders.map (paddleMove l r)) := by
      simpa [applyVelocitySys, movePaddleSys] using hc
    obtain ⟨c0, hc0, hfc0⟩ := List.mem_map.mp hc2
    refine ⟨c0, hc0, ?_, ?_⟩
    · rw [← hci, ← hfc0]
      exact ((paddleMove_fields l r c0).1).symm
    · rw [← hcb, ← hfc0]
      exact ((paddleMove_fields l r c0).2.2.1).symm

/-- Witness for C3: in the closed world `w1` the resting ball overlaps
the brick, which is despawned this tick; the source of that despawn is a
brick of the pre-tick world. -/
theorem C3_witness :
    despawnedThisTick false false w1 = [7] ∧
    ∃ c, c ∈ w1.colliders ∧ c.id = 7 ∧ c.isBrick = true := by
  have h7 : despawnedThisTick false false w1 = [7] := by
    norm_num [despawnedThisTick, applyVelocitySys, movePaddleSys, w1, brick0, paddleMove,
      apply_velocity, check_for_collisions, processCollider, collide, ball_size, BALL_SIZE,
      reflectVelocity, TIME_STEP]
  exact ⟨h7, C3_scoreboard_counts_bricks.2.2.2 false false w1 7 (by rw [h7]; simp)⟩

/-- C4. Every brick is destroyed at most once: a live brick the post-
motion ball box overlaps is removed from the live set by that tick; an
entity id absent from the live set never reappears in it; and within one
tick no brick is despawned (scored) twice, since the loop visits each
entity once and the live ids are distinct. -/
theorem C4_brick_destroyed_once :
    (∀ l r w (c : ColliderEnt), c ∈ w.colliders → c.isBrick = true → c.isPaddle = false →
      collide (apply_velocity w.ballPos w.ballVel) ball_size c.pos c.size ≠ none →
      c.id ∉ (tick l r w).colliders.map ColliderEnt.id) ∧
    (∀ l r w i, i ∉ w.colliders.map ColliderEnt.id →
      i ∉ (tick l r w).colliders.map ColliderEnt.id) ∧
    (∀ l r w, (w.colliders.map ColliderEnt.id).Nodup → (despawnedThisTick l r w).Nodup) := by
  refine ⟨?_, ?_, ?_⟩
  · intro l r w c hc hb hp hh hcontra
    obtain ⟨d, hd, hdid⟩ := List.mem_map.mp hcontra
    have hd2 : d ∈ (movePaddleSys l r w).colliders ∧
        decide (d.id ∉ despawnedThisTick l r w) = true := by
      apply List.mem_filter.mp
      simpa [tick, checkForCollisionsSys, applyVelocitySys, despawnedThisTick] using hd
    have hdes : c.id ∈ despawnedThisTick l r w := by
      have hc1 : c ∈ (movePaddleSys l r w).colliders := by
        simp only [movePaddleSys]
        exact List.mem_map.mpr ⟨c, hc, paddleMove_of_not_paddle l r c hp⟩
      simpa [despawnedThisTick, check_for_collisions] using
        foldl_hit_brick (applyVelocitySys (movePaddleSys l r w)).ballPos
          (applyVelocitySys (movePaddleSys l r w)).colliders
          ⟨(applyVelocitySys (movePaddleSys l r w)).ballVel,
            (applyVelocitySys (movePaddleSys l r w)).score, [], 0⟩
          c (by simpa [applyVelocitySys] using hc1) hb hh
    have hnot := of_decide_eq_true hd2.2
    rw [hdid] at hnot
    exact hnot hdes
  · intro l r w i hi hcontra
    obtain ⟨d, hd, hdid⟩ := List.mem_map.mp hcontra
    have hd1 : d ∈ (movePaddleSys l r w).colliders := by
      apply List.mem_of_mem_filter (p := fun c => decide (c.id ∉ despawnedThisTick l r w))
      simpa [tick, checkForCollisionsSys, applyVelocitySys, despawnedThisTick] using hd
    apply hi
    rw [← movePaddleSys_ids l r w]
    exact List.mem_map.mpr ⟨d, hd1, hdid⟩
  · intro l r w hnd
    have hids : ((applyVelocitySys (movePaddleSys l r w)).colliders).map ColliderEnt.id
        = w.colliders.map ColliderEnt.id := by
      simpa [applyVelocitySys] using movePaddleSys_ids l r w
    have h := foldl_despawned_nodup (applyVelocitySys (movePaddleSys l r w)).ballPos
      (applyVelocitySys (movePaddleSys l r w)).colliders
      ⟨(applyVelocitySys (movePaddleSys l r w)).ballVel,
        (applyVelocitySys (movePaddleSys l r w)).score, [], 0⟩
      List.nodup_nil (by intro i hi; simp at hi) (by rw [hids]; exact hnd)
    simpa [despawnedThisTick, check_for_collisions] using h

/-- Witness for C4: in the closed world `w1` the overlapped brick's id is
gone from the live set after the tick, and the despawn queue of the tick
has no duplicates. -/
theorem C4_witness :
    brick0.id ∉ (tick false false w1).colliders.map ColliderEnt.id ∧
    (despawnedThisTick false false w1).Nodup := by
  constructor
  · refine C4_brick_destroyed_once.1 false false w1 brick0 (by simp [w1]) rfl rfl ?_
    have h : collide (apply_velocity w1.ballPos w1.ballVel) ball_size brick0.pos brick0.size
        = some .Inside := by
      norm_num [apply_velocity, w1, brick0, collide, ball_size, BALL_SIZE, TIME_STEP]
    simp [h]
  · exact C4_brick_destroyed_once.2.2 false false w1 (by simp [w1, brick0])

/-- C10. The collision engine conserves the ball's speed componentwise:
the absolute values of the velocity components after
`check_for_collisions` equal those before it, for every set of contacts
processed; and over a whole tick no other system writes the velocity, so
the same holds across the tick. -/
theorem C10_speed_conservation :
    (∀ p v s cs, |(check_for_collisions p v s cs).velocity.x| = |v.x| ∧
      |(check_for_collisions p v s cs).velocity.y| = |v.y|) ∧
    (∀ l r w, |(tick l r w).ballVel.x| = |w.ballVel.x| ∧
      |(tick l r w).ballVel.y| = |w.ballVel.y|) := by
  have h1 : ∀ p v s cs, |(check_for_collisions p v s cs).velocity.x| = |v.x| ∧
      |(check_for_collisions p v s cs).velocity.y| = |v.y| :=
    fun p v s cs => foldl_velocity_abs p cs ⟨v, s, [], 0⟩
  refine ⟨h1, fun l r w => ?_⟩
  have h := h1 (applyVelocitySys (movePaddleSys l r w)).ballPos w.ballVel w.score
    (applyVelocitySys (movePaddleSys l r w)).colliders
  simpa [tick, checkForCollisionsSys, applyVelocitySys, movePaddleSys] using h

end Breakout
